import Mathlib

/-
Verification development for the panopti viewer session protocol layer
(src/panopti/viewer.py).  The Python code is shallowly embedded: the
mutable `ViewerClient` state becomes an explicit `ViewerState` record,
inbound socket handlers become pure functions from state and message to
state plus an `Effects` record (transport emissions, event-dispatcher
triggers, warning prints), and Python exceptions become `Except` /
`Option PyErr` results.  External collaborators (numpy `as_array` /
`as_list`, PIL decoding, the transport itself) are abstracted exactly at
the boundary the code uses them.
-/

namespace Panopti

/-- Scalar payload values crossing the transport (one level of Python
scalars: ints, strings, and floats modelled as rationals). -/
inductive Prim
  | pint (n : Int)
  | pstr (s : String)
  | prat (q : Rat)
deriving DecidableEq, Repr

/-- Typed material object produced by `create_material_from_dict`
(panopti.materials.utils, outside the embedded core); opaque here. -/
structure MaterialObj where
  tag : String
deriving DecidableEq, Repr

/-- Attribute / payload values: scalars, one-level dicts (enough for the
`material` dicts and camera payloads the claims touch), typed materials,
and arrays (numpy arrays abstracted as lists of scalars). -/
inductive Value
  | prim (p : Prim)
  | dict (entries : List (String × Prim))
  | material (m : MaterialObj)
  | arr (vs : List Prim)
deriving DecidableEq, Repr

/-- A colored console text segment, as emitted on `console_output`. -/
structure Segment where
  text : String
  color : Option String
deriving DecidableEq, Repr

/-- Values living in the console evaluation scope. -/
inductive PyVal
  | vint (n : Int)
  | vnone
deriving DecidableEq, Repr

/-- Python exceptions that the embedded code can raise or catch. -/
inductive PyErr
  | valueError (msg : String)
  | nameError (name : String)
  | typeError
  | userError (errName : String)
  | unboundLocal (name : String)
  | syntaxError
deriving DecidableEq, Repr

/-- A scene object or UI control is modelled as its attribute map
(`hasattr` = key present, `setattr` = value update). -/
abbrev PyObj := List (String × Value)

/-- One pending-request slot: `threading.Event` flag plus result data
(`_request_threads[k]` / `_request_data[k]`). -/
structure Slot where
  evtSet : Bool
  data : Option Value
deriving DecidableEq, Repr

abbrev Scope := List (String × PyVal)

/-- Session state of `ViewerClient` (the fields the embedded handlers
read or write).  The console scope pair models
`_console_scope_globals` / `_console_scope_locals` after
`_resolve_console_scope` (writes go to the locals map; the default
configuration aliases both to the same dict, modelled as lookup through
locals first, then globals). -/
structure ViewerState where
  viewerId : String
  interactiveConsoleEnabled : Bool
  consoleDisabledWarningEmitted : Bool
  objects : List (String × PyObj)
  uiControls : List (String × PyObj)
  printBuffer : String
  slots : List (String × Slot)
  scopeG : Scope
  scopeL : Scope
deriving DecidableEq, Repr

/-- Outbound transport emissions (`socket_manager.emit*`). -/
inductive Emission
  | clientHeartbeat (viewerId : String)
  | consoleMeta (enabled : Bool)
  | setCamera (camera : List (String × Prim))
  | addGeometry (name : String) (obj : PyObj)
  | addControl (name : String) (control : PyObj)
  | consoleOutput (segments : List Segment)
  | relayStateRequest (eventName : String) (viewerId : String) (data : Option Value)
deriving DecidableEq, Repr

/-- In-process event-dispatcher triggers (`self.events.trigger`). -/
inductive Trigger
  | camera (data : Option Value)
  | inspect (data : Option Value)
  | selectObject (data : Option Value)
  | gizmo (data : Option Value)
  | updateObject (objId : String) (updates : List (String × Value))
deriving DecidableEq, Repr

/-- Observable side effects of one inbound handler invocation:
transport emissions, dispatcher triggers, and warning prints to the
host stdout. -/
structure Effects where
  emits : List Emission
  triggers : List Trigger
  warnings : List String
deriving DecidableEq, Repr

def Effects.nil : Effects := ⟨[], [], []⟩

-- ---------------------------------------------------------------------------
-- Python dict / string helpers used throughout the embedding.
-- ---------------------------------------------------------------------------

/-- Membership of a key in an association list (Python `key in dict` /
`hasattr`). -/
def keyMem (l : List (String × α)) (k : String) : Bool :=
  l.any (fun p => p.1 == k)

/-- Python `dict.get` / attribute read. -/
def assocGet (l : List (String × α)) (k : String) : Option α :=
  (l.find? (fun p => p.1 == k)).map Prod.snd

/-- Python `dict[key] = v` / `setattr`: replace in place when the key is
present (keeping its position, as Python dicts do), append otherwise.
Dict key sets are unique, so replacing the first occurrence is the
faithful embedding. -/
def assocSet : List (String × α) → String → α → List (String × α)
  | [], k, v => [(k, v)]
  | p :: rest, k, v =>
    if p.1 == k then (k, v) :: rest else p :: assocSet rest k v

/-- Python `str.startswith`. -/
def pyStartsWith (s pre : String) : Bool :=
  pre.toList.isPrefixOf s.toList

/-- Python `str.endswith`. -/
def pyEndsWith (s post : String) : Bool :=
  post.toList.isSuffixOf s.toList

/-- Python `str.lower` (ASCII). -/
def pyLower (s : String) : String :=
  String.mk (s.toList.map Char.toLower)

/-- Python `str.strip()` (both ends, whitespace). -/
def pyStrip (l : List Char) : List Char :=
  ((l.dropWhile Char.isWhitespace).reverse.dropWhile Char.isWhitespace).reverse

/-- Python `str.rstrip()` (trailing whitespace). -/
def pyRstrip (l : List Char) : List Char :=
  (l.reverse.dropWhile Char.isWhitespace).reverse

/-- Fuel-driven worker for `pyRemoveAll`; the fuel is the length of the
remaining text, which bounds the number of steps. -/
def pyRemoveAllAux (old : List Char) : Nat → List Char → List Char
  | _, [] => []
  | 0, l => l
  | fuel + 1, c :: rest =>
    if old.isPrefixOf (c :: rest) then
      pyRemoveAllAux old fuel (rest.drop (old.length - 1))
    else
      c :: pyRemoveAllAux old fuel rest

/-- Python `s.replace(old, '')` for non-empty `old`: scan left to right
and drop every non-overlapping occurrence of `old`. -/
def pyRemoveAll (old : List Char) (s : List Char) : List Char :=
  pyRemoveAllAux old s.length s

/-- Python `s.rsplit('.', 1)` when a dot is present: the text before the
last dot and the text after it. -/
def rsplitDot (l : List Char) : Option (List Char × List Char) :=
  if l.contains '.' then
    let rev := l.reverse
    some (((rev.dropWhile (fun c => c ≠ '.')).drop 1).reverse,
          (rev.takeWhile (fun c => c ≠ '.')).reverse)
  else none

def identTailChar (c : Char) : Bool := c.isAlpha || c.isDigit || c == '_'

def identHeadChar (c : Char) : Bool := c.isAlpha || c == '_'

/-- Whether a character list is a Python identifier. -/
def isIdentChars : List Char → Bool
  | [] => false
  | c :: rest => identHeadChar c && rest.all identTailChar

/-- The match of `re.search(r'([A-Za-z_][A-Za-z0-9_]*)$', s)`: the
leftmost suffix of identifier characters that starts with a letter or
underscore. -/
def trailingIdent (l : List Char) : Option (List Char) :=
  let tail := (l.reverse.takeWhile identTailChar).reverse
  let m := tail.dropWhile (fun c => !identHeadChar c)
  if m.isEmpty then none else some m

/-- Python `', '.join(l)`. -/
def joinComma : List String → String
  | [] => ""
  | [s] => s
  | s :: rest => s ++ ", " ++ joinComma rest

/-- Lexicographic code-point comparison of character lists — the order
Python's `sorted` uses on strings. -/
def charListLe : List Char → List Char → Bool
  | [], _ => true
  | _ :: _, [] => false
  | a :: as, b :: bs =>
    if a = b then charListLe as bs else decide (a < b)

/-- Python's `s1 <= s2` on strings. -/
def strLe (a b : String) : Bool := charListLe a.toList b.toList

/-- `sorted(set(names))`: sort ascending after removing duplicates. -/
def sortDedup (l : List String) : List String :=
  (l.dedup).insertionSort (fun a b => strLe a b = true)

-- ---------------------------------------------------------------------------
-- Console command language.  A console command arrives as text; its
-- semantics under `compile`/`eval`/`exec` are embedded by representing the
-- text by its syntax tree: `exprCmd e` is a command that compiles in
-- `'eval'` mode, `stmtsCmd l` is a command for which `compile(..., 'eval')`
-- raises SyntaxError and `compile(..., 'exec')` yields the statements `l`.
-- ---------------------------------------------------------------------------

inductive PyExpr
  | lit (v : PyVal)
  | var (x : String)
  | add (a b : PyExpr)
  | raiseE (errName : String)
deriving DecidableEq, Repr

inductive PyStmt
  | assign (x : String) (e : PyExpr)
  | exprStmt (e : PyExpr)
deriving DecidableEq, Repr

inductive Cmd
  | exprCmd (e : PyExpr)
  | stmtsCmd (l : List PyStmt)
deriving DecidableEq, Repr

/-- Name resolution of `eval`/`exec` with separate globals and locals:
locals first, then globals (builtin objects are not representable as
scope values here; see `Deps.builtinNames` for builtin names). -/
def lookupName (g l : Scope) (x : String) : Except PyErr PyVal :=
  match assocGet l x with
  | some v => .ok v
  | none =>
    match assocGet g x with
    | some v => .ok v
    | none => .error (.nameError x)

def evalExpr (g l : Scope) : PyExpr → Except PyErr PyVal
  | .lit v => .ok v
  | .var x => lookupName g l x
  | .add a b => do
    let va ← evalExpr g l a
    let vb ← evalExpr g l b
    match va, vb with
    | .vint m, .vint n => .ok (.vint (m + n))
    | _, _ => .error .typeError
  | .raiseE n => .error (.userError n)

/-- `exec(compiled, globals_dict, locals_dict)`: run statements in order,
assignments binding into the locals map; on an exception the bindings
made so far are kept and the exception propagates. -/
def execStmts (g : Scope) : Scope → List PyStmt → Scope × Option PyErr
  | l, [] => (l, none)
  | l, .assign x e :: rest =>
    match evalExpr g l e with
    | .ok v => execStmts g (assocSet l x v) rest
    | .error err => (l, some err)
  | l, .exprStmt e :: rest =>
    match evalExpr g l e with
    | .ok _ => execStmts g l rest
    | .error err => (l, some err)

/-- Python `repr` on console values. -/
def reprVal : PyVal → String
  | .vint n => toString n
  | .vnone => "None"

def pyErrName : PyErr → String
  | .valueError _ => "ValueError"
  | .nameError _ => "NameError"
  | .typeError => "TypeError"
  | .userError n => n
  | .unboundLocal _ => "UnboundLocalError"
  | .syntaxError => "SyntaxError"

/-- Modelled from the Python standard library: `traceback.format_exc()`
renders the pending exception; all the embedding relies on is that the
text is non-empty and contains the error name. -/
def tracebackFormatExc (e : PyErr) : String :=
  "Traceback (most recent call last):\n" ++ pyErrName e ++ "\n"

-- ---------------------------------------------------------------------------
-- Console text emission.
-- ---------------------------------------------------------------------------

/-- Modelled from the spec: `split_text_to_segments` from
panopti.utils.print_capture (not under src/) splits emitted text into
colored `(text, color)` segments; plain text without color escape codes
becomes a single uncolored segment. -/
def splitTextToSegments (text : String) : List Segment :=
  [⟨text, none⟩]

/-- `ViewerClient._emit_console_text`: append to the retained print
buffer and emit the text as colored segments; empty text emits nothing. -/
def emitConsoleText (st : ViewerState) (text : String) (color : Option String) :
    ViewerState × List Emission :=
  if text = "" then (st, [])
  else
    let segments := (splitTextToSegments text).map
      (fun s => if s.color = none then ⟨s.text, color⟩ else s)
    ({ st with printBuffer := st.printBuffer ++ text }, [.consoleOutput segments])

def warnConsoleDisabledText : String :=
  "[Panopti] Interactive console is disabled for this viewer. Reconnect with panopti.connect(..., interactive_console=True) to enable Python execution.\n"

/-- `ViewerClient._warn_console_disabled_once`. -/
def warnConsoleDisabledOnce (st : ViewerState) : ViewerState × List Emission :=
  if st.consoleDisabledWarningEmitted then (st, [])
  else
    emitConsoleText { st with consoleDisabledWarningEmitted := true }
      warnConsoleDisabledText (some ("yellow"))

/-- `ViewerClient._execute_console_command` on a non-blank command (the
blank-command early return is handled by the caller wrapper).  The
commands of the embedded language do not print, so the redirected
stdout/stderr buffers stay empty and their final flush emits nothing. -/
def executeConsoleCommand (st : ViewerState) (cmd : Cmd) : ViewerState × List Emission :=
  match cmd with
  | .exprCmd e =>
    match evalExpr st.scopeG st.scopeL e with
    | .ok v =>
      if v = .vnone then (st, [])
      else emitConsoleText st (reprVal v ++ "\n") none
    | .error err => emitConsoleText st (tracebackFormatExc err) (some ("red"))
  | .stmtsCmd l =>
    match execStmts st.scopeG st.scopeL l with
    | (l', none) => ({ st with scopeL := l' }, [])
    | (l', some err) =>
      emitConsoleText { st with scopeL := l' } (tracebackFormatExc err) (some ("red"))

-- ---------------------------------------------------------------------------
-- Console completion.
-- ---------------------------------------------------------------------------

/-- External collaborators the handlers depend on: material decoding
(panopti.materials.utils, can raise), Python `dir` on an object, and the
builtin namespace's names (`__builtins__` keys). -/
structure Deps where
  decodeMaterial : List (String × Prim) → Except String MaterialObj
  dirF : PyVal → List String
  builtinNames : List String

/-- Evaluation of the object expression before the last dot, as done by
`eval(object_expr, globals_dict, locals_dict)`: the embedding covers the
identifier fragment (a non-identifier expression is modelled as raising,
as `eval` raises on text that is not an expression or whose names are
unbound). -/
def evalObjectExpr (g l : Scope) (expr : List Char) : Except PyErr PyVal :=
  if isIdentChars expr then lookupName g l (String.mk expr)
  else .error .syntaxError

/-- The identifier branch of `_collect_console_completions`: the trailing
identifier prefix of the source matched against globals, locals and
builtin names. -/
def identCompletions (bNames : List String) (g l : Scope) (src : List Char) :
    List String :=
  match trailingIdent src with
  | none => []
  | some preChars =>
    let pre := String.mk preChars
    let scopeNames := (g.map Prod.fst) ++ (l.map Prod.fst) ++ bNames
    sortDedup (scopeNames.filter (fun n => pyStartsWith n pre))

/-- `ViewerClient._collect_console_completions`. -/
def collectConsoleCompletions (deps : Deps) (g l : Scope) (command : String) :
    Except PyErr (List String) :=
  let src := pyRstrip command.toList
  if src.isEmpty then .ok []
  else
    match rsplitDot src with
    | some (beforeDot, afterDot) =>
      let objExpr := pyStrip beforeDot
      if objExpr.isEmpty then .ok (identCompletions deps.builtinNames g l src)
      else
        match evalObjectExpr g l objExpr with
        | .error e => .error e
        | .ok target =>
          let pre := String.mk afterDot
          let candidates := deps.dirF target
          let candidates :=
            if pre ≠ "" then candidates.filter (fun n => pyStartsWith n pre)
            else candidates.filter (fun n => !pyStartsWith n ("__"))
          .ok (sortDedup candidates)
    | none => .ok (identCompletions deps.builtinNames g l src)

/-- `ViewerClient._emit_completion_list`. -/
def emitCompletionList (st : ViewerState) (completions : List String) :
    ViewerState × List Emission :=
  if completions.isEmpty then
    emitConsoleText st ("(no completions)\n") (some ("yellow"))
  else
    emitConsoleText st (joinComma completions ++ "\n") none

-- ---------------------------------------------------------------------------
-- Inbound handlers.  Each mirrors the corresponding `ViewerClient` method;
-- `vid` is the message's `viewer_id` field (`none` when absent, in which
-- case the comparison with the session's id fails, as `None != str` does).
-- ---------------------------------------------------------------------------

/-- `ViewerClient.handle_console_command`.  `command` is `none` when the
`command` field is absent or blank, in which case
`_execute_console_command` returns without effect. -/
def handle_console_command (st : ViewerState) (vid : Option String)
    (command : Option Cmd) : ViewerState × List Emission :=
  if vid ≠ some st.viewerId then (st, [])
  else if !st.interactiveConsoleEnabled then warnConsoleDisabledOnce st
  else
    match command with
    | none => (st, [])
    | some c => executeConsoleCommand st c

/-- `ViewerClient.handle_console_complete`: completion under the console
lock, any exception rendered as a red traceback. -/
def handle_console_complete (deps : Deps) (st : ViewerState) (vid : Option String)
    (command : String) : ViewerState × List Emission :=
  if vid ≠ some st.viewerId then (st, [])
  else if !st.interactiveConsoleEnabled then warnConsoleDisabledOnce st
  else
    match collectConsoleCompletions deps st.scopeG st.scopeL command with
    | .ok completions => emitCompletionList st completions
    | .error e => emitConsoleText st (tracebackFormatExc e) (some ("red"))

/-- The warning line printed by `handle_update_object` when
`create_material_from_dict` raises. -/
def materialWarning (e : String) : String :=
  "Warning: Could not recreate material from dict: " ++ e

/-- The value actually assigned by one iteration of the update loop of
`handle_update_object`: the `material` key with a dict value carrying a
`type` tag goes through `create_material_from_dict`, falling back to the
raw dict when decoding raises; every other key stores the raw value. -/
def updatedValue (decode : List (String × Prim) → Except String MaterialObj)
    (k : String) (v : Value) : Value :=
  match v with
  | .dict entries =>
    if k == "material" && keyMem entries "type" then
      match decode entries with
      | .ok m => .material m
      | .error _ => v
    else v
  | _ => v

/-- The warning printed by that iteration (non-empty exactly when typed
material decoding raised). -/
def updateWarnings (decode : List (String × Prim) → Except String MaterialObj)
    (k : String) (v : Value) : List String :=
  match v with
  | .dict entries =>
    if k == "material" && keyMem entries "type" then
      match decode entries with
      | .ok _ => []
      | .error e => [materialWarning e]
    else []
  | _ => []

/-- The update loop of `handle_update_object`: for each key the entity
has, assign `updatedValue` and collect the warnings; keys the entity
lacks are skipped silently. -/
def applyUpdates (decode : List (String × Prim) → Except String MaterialObj)
    (obj : PyObj) : List (String × Value) → PyObj × List String
  | [] => (obj, [])
  | (k, v) :: rest =>
    if keyMem obj k then
      let r := applyUpdates decode (assocSet obj k (updatedValue decode k v)) rest
      (r.1, updateWarnings decode k v ++ r.2)
    else applyUpdates decode obj rest

/-- `ViewerClient.handle_update_object`.  `as_array` (numpy conversion of
nested lists) is the identity at this abstraction level. -/
def handle_update_object (decode : List (String × Prim) → Except String MaterialObj)
    (st : ViewerState) (vid : Option String) (objId : Option String)
    (updates : List (String × Value)) : ViewerState × Effects :=
  if vid ≠ some st.viewerId then (st, Effects.nil)
  else
    match objId with
    | none => (st, Effects.nil)
    | some oid =>
      match assocGet st.objects oid with
      | none => (st, Effects.nil)
      | some obj =>
        let r := applyUpdates decode obj updates
        ({ st with objects := assocSet st.objects oid r.1 },
         ⟨[], [.updateObject oid updates], r.2⟩)

/-- The fixed set `ViewerClient._request_events`. -/
def requestEvents : List String := ["camera_info", "selected_object", "screenshot"]

/-- `event.replace('request_', '')` as the source computes it: removal of
every occurrence of the substring. -/
def requestBasename (eventName : String) : String :=
  String.mk (pyRemoveAll ("request_").toList eventName.toList)

/-- Modelled from the spec: the claim's reading of the basename — the
event name "after removing the `request_` prefix" (a single leading
occurrence).  Kept separate from `requestBasename`, which follows the
source's replace-all. -/
def removeRequestPrefixOnce (eventName : String) : String :=
  let pre := ("request_").toList
  let l := eventName.toList
  if pre.isPrefixOf l then String.mk (l.drop pre.length) else eventName

/-- `ViewerClient.emit_state_request`: validate the kind (raising
ValueError on an unknown one, before touching any slot), then clear the
kind's completion signal and result slot and relay the request. -/
def emit_state_request (st : ViewerState) (vid : Option String)
    (eventName : String) (eventData : Option Value) :
    ViewerState × List Emission × Option PyErr :=
  if vid ≠ some st.viewerId then (st, [], none)
  else
    let basename := requestBasename eventName
    if !requestEvents.contains basename then
      (st, [], some (.valueError ("Unknown state request event: " ++ eventName)))
    else
      ({ st with slots := assocSet st.slots basename ⟨false, none⟩ },
       [.relayStateRequest eventName st.viewerId eventData], none)

/-- `ViewerClient.handle_state_request`: validate the kind (raising
ValueError before touching any slot), then store the payload and signal
completion. -/
def handle_state_request (st : ViewerState) (vid : Option String)
    (eventName : String) (payload : Option Value) : ViewerState × Option PyErr :=
  if vid ≠ some st.viewerId then (st, none)
  else
    let basename := requestBasename eventName
    if !requestEvents.contains basename then
      (st, some (.valueError ("Unknown state request event: " ++ eventName)))
    else
      ({ st with slots := assocSet st.slots basename ⟨true, payload⟩ }, none)

/-- `self._request_threads[kind].wait(timeout)` followed by the data read:
in the pure model the wait's outcome is the state of the completion flag
when the wait resolves (at signal time, or at timeout expiry). -/
def pullWait (st : ViewerState) (kind : String) : Option Value :=
  match assocGet st.slots kind with
  | some s => if s.evtSet then s.data else none
  | none => none

/-- A full synchronous pull (`camera` / `selected_object` / `screenshot`
wrappers): emit the request, then wait.  `arrival = some d` means a
matching `handle_state_request` with payload `d` was delivered on the
transport thread before the timeout; `none` means no reply arrived. -/
def pullCall (st : ViewerState) (kind eventName : String) (reqData : Option Value)
    (arrival : Option (Option Value)) : Option Value × ViewerState :=
  let st₁ := (emit_state_request st (some st.viewerId) eventName reqData).1
  let st₂ :=
    match arrival with
    | some d => (handle_state_request st₁ (some st.viewerId) eventName d).1
    | none => st₁
  (pullWait st₂ kind, st₂)

/-- `ViewerClient.camera` (the `as_array` conversion of the returned
camera dict is the identity at this abstraction level). -/
def cameraCall (st : ViewerState) (arrival : Option (Option Value)) :
    Option Value × ViewerState :=
  pullCall st ("camera_info") ("request_camera_info") none arrival

/-- `ViewerClient.selected_object`. -/
def selectedObjectCall (st : ViewerState) (arrival : Option (Option Value)) :
    Option Value × ViewerState :=
  pullCall st ("selected_object") ("request_selected_object") none arrival

/-- `ViewerClient.screenshot`, up to and including the wait. -/
def screenshotCall (st : ViewerState) (reqData : Option Value)
    (arrival : Option (Option Value)) : Option Value × ViewerState :=
  pullCall st ("screenshot") ("request_screenshot") reqData arrival

/-- `DEFAULT_CAMERA_STATE` (`as_list` is the identity on this scalar
dict). -/
def defaultCameraState : List (String × Prim) :=
  [("projection_mode", .pstr "perspective"), ("fov", .pint 50),
   ("near", .prat (mkRat 1 10)), ("far", .pint 1000)]

/-- `ViewerClient.handle_request_state`: full-state resync.  The method
reads neither the payload nor its `viewer_id`.  Every entity class of the
repository defines `to_dict` (their serialization contract), so the
`hasattr(obj, 'to_dict')` guard passes for all registered entities. -/
def handle_request_state (st : ViewerState) : List Emission :=
  [.consoleMeta st.interactiveConsoleEnabled,
   .setCamera defaultCameraState]
  ++ st.objects.map (fun p => .addGeometry p.1 p.2)
  ++ st.uiControls.map (fun p => .addControl p.1 p.2)
  ++ (if st.printBuffer = "" then []
      else [.consoleOutput (splitTextToSegments st.printBuffer)])

-- ---------------------------------------------------------------------------
-- Message dispatch.  One constructor per inbound transport event that the
-- claims range over (`ui_event_response` and `restart_script` are outside
-- every claim and the browser-restart side effect is not embeddable).
-- ---------------------------------------------------------------------------

inductive InMsg
  | updateObject (vid : Option String) (objId : Option String)
      (updates : List (String × Value))
  | consoleCommand (vid : Option String) (command : Option Cmd)
  | consoleComplete (vid : Option String) (command : String)
  | viewerHeartbeat (vid : Option String)
  | stateReply (vid : Option String) (eventName : String) (payload : Option Value)
  | eventsCamera (vid : Option String) (payload : Option Value)
  | eventsInspect (vid : Option String) (payload : Option Value)
  | eventsSelectObject (vid : Option String) (payload : Option Value)
  | eventsGizmo (vid : Option String) (payload : Option Value)
  | requestState (vid : Option String)
deriving DecidableEq, Repr

def InMsg.viewerIdField : InMsg → Option String
  | .updateObject v _ _ => v
  | .consoleCommand v _ => v
  | .consoleComplete v _ => v
  | .viewerHeartbeat v => v
  | .stateReply v _ _ => v
  | .eventsCamera v _ => v
  | .eventsInspect v _ => v
  | .eventsSelectObject v _ => v
  | .eventsGizmo v _ => v
  | .requestState v => v

def InMsg.isRequestState : InMsg → Bool
  | .requestState _ => true
  | _ => false

/-- Routing of one inbound transport message to its `ViewerClient`
handler, returning the new session state, the observable effects, and any
exception the handler raised.  The `events.*` payload extraction
(`as_array` conversion) is the identity at this abstraction level. -/
def handleMessage (deps : Deps) (st : ViewerState) :
    InMsg → ViewerState × Effects × Option PyErr
  | .updateObject vid objId updates =>
    let r := handle_update_object deps.decodeMaterial st vid objId updates
    (r.1, r.2, none)
  | .consoleCommand vid command =>
    let r := handle_console_command st vid command
    (r.1, ⟨r.2, [], []⟩, none)
  | .consoleComplete vid command =>
    let r := handle_console_complete deps st vid command
    (r.1, ⟨r.2, [], []⟩, none)
  | .viewerHeartbeat vid =>
    if vid ≠ some st.viewerId then (st, Effects.nil, none)
    else (st, ⟨[.clientHeartbeat st.viewerId], [], []⟩, none)
  | .stateReply vid eventName payload =>
    let r := handle_state_request st vid eventName payload
    (r.1, Effects.nil, r.2)
  | .eventsCamera vid payload =>
    if vid ≠ some st.viewerId then (st, Effects.nil, none)
    else (st, ⟨[], [.camera payload], []⟩, none)
  | .eventsInspect vid payload =>
    if vid ≠ some st.viewerId then (st, Effects.nil, none)
    else (st, ⟨[], [.inspect payload], []⟩, none)
  | .eventsSelectObject vid payload =>
    if vid ≠ some st.viewerId then (st, Effects.nil, none)
    else (st, ⟨[], [.selectObject payload], []⟩, none)
  | .eventsGizmo vid payload =>
    if vid ≠ some st.viewerId then (st, Effects.nil, none)
    else (st, ⟨[], [.gizmo payload], []⟩, none)
  | .requestState _ =>
    (st, ⟨handle_request_state st, [], []⟩, none)

-- ---------------------------------------------------------------------------
-- Registration and session construction.
-- ---------------------------------------------------------------------------

/-- Session state right after `ViewerClient.__init__` with an explicit
console scope configured. -/
def initialState (vid : String) (enabled : Bool) : ViewerState :=
  { viewerId := vid
    interactiveConsoleEnabled := enabled
    consoleDisabledWarningEmitted := false
    objects := []
    uiControls := []
    printBuffer := ""
    slots := [("camera_info", ⟨false, none⟩), ("selected_object", ⟨false, none⟩),
              ("screenshot", ⟨false, none⟩)]
    scopeG := []
    scopeL := [] }

/-- The state change of an `add_*` scene registration
(`self.objects[name] = obj` followed by `emit_add_geometry`). -/
def registerSceneObject (st : ViewerState) (name : String) (obj : PyObj) :
    ViewerState × Emission :=
  ({ st with objects := assocSet st.objects name obj }, .addGeometry name obj)

/-- The state change of a control registration
(`self.ui_controls[name] = control` followed by `emit_add_control`). -/
def registerControl (st : ViewerState) (name : String) (control : PyObj) :
    ViewerState × Emission :=
  ({ st with uiControls := assocSet st.uiControls name control }, .addControl name control)

/-- A session built by a sequence of scene-object adds, then control
adds, with whatever console text accumulated in the retained buffer. -/
def sessionAfterAdds (vid : String) (enabled : Bool)
    (objRegs ctrlRegs : List (String × PyObj)) (buf : String) : ViewerState :=
  let st := initialState vid enabled
  let st := objRegs.foldl (fun s p => (registerSceneObject s p.1 p.2).1) st
  let st := ctrlRegs.foldl (fun s p => (registerControl s p.1 p.2).1) st
  { st with printBuffer := buf }

-- ---------------------------------------------------------------------------
-- Screenshot post-wait processing.
-- ---------------------------------------------------------------------------

/-- `os.path.splitext` restricted to bare filenames (no directory
separators): the extension starts at the last dot, unless that dot lies
in the leading run of dots. -/
def pySplitExt (s : String) : String × String :=
  let l := s.toList
  let lead := (l.takeWhile (fun c => c == '.')).length
  match ((l.enum.filter (fun p => p.2 == '.')).map Prod.fst).getLast? with
  | some i =>
    if i ≥ lead then (String.mk (l.take i), String.mk (l.drop i)) else (s, "")
  | none => (s, "")

/-- `img_b64.split(',', 1)[1]` when a comma is present (stripping an
optional data-URI header), the whole string otherwise. -/
def stripDataHeader (s : String) : String :=
  let l := s.toList
  if l.contains ',' then String.mk ((l.dropWhile (fun c => c ≠ ',')).drop 1) else s

/-- `ViewerClient.screenshot` after `emit_state_request`: `waitOk` is the
outcome of the wait, `slotValue` the stored base64 reply.  The result is
`none` on timeout or an empty payload, and otherwise
`(channel count, decoded base64 body, saved filename)`; PIL decoding of
the base64 body is kept abstract (the body string stands for the decoded
image) and `convert('RGBA')`/`convert('RGB')` fixes the channel count.
The local variable `ext` is modelled with Python's local-variable
semantics: it is bound only inside the `if filename:` block, and reading
it unbound raises UnboundLocalError. -/
def screenshotBody (filename : Option String) (slotValue : Option String)
    (waitOk : Bool) : Except PyErr (Option (Nat × String × Option String)) :=
  if !waitOk then .ok none
  else
    match slotValue with
    | none => .ok none
    | some imgB64 =>
      if imgB64 = "" then .ok none
      else
        let b64data := stripDataHeader imgB64
        let extAndName : Except PyErr (Option String × Option String) :=
          match filename with
          | some f =>
            let e := (pySplitExt f).2
            let e := if e = "" then ".png" else e
            if !([".png", ".jpg", ".jpeg"].contains (pyLower e)) then
              .error (.valueError ("Unsupported file extension: " ++ e ++
                ". Supported extensions are: .png, .jpg, .jpeg"))
            else
              .ok (some e, some (if pyEndsWith f e then f else f ++ e))
          | none => .ok (none, none)
        match extAndName with
        | .error err => .error err
        | .ok (ext, savedName) =>
          match ext with
          | none => .error (.unboundLocal "ext")
          | some e =>
            let channels := if pyLower e = ".png" then 4 else 3
            .ok (some (channels, b64data, savedName))

-- ---------------------------------------------------------------------------
-- Concrete fixtures used by witnesses and counterexamples.
-- ---------------------------------------------------------------------------

/-- A material decoder that always raises (an unrecognized type tag). -/
def failDecode : List (String × Prim) → Except String MaterialObj :=
  fun _ => .error ("unknown material type tag")

def deps0 : Deps :=
  ⟨failDecode, fun _ => [], ["print", "len", "abs"]⟩

def st0 : ViewerState := initialState ("viewer_a") true

def objA : PyObj :=
  [("name", .prim (.pstr "cube")), ("visible", .prim (.pint 1)),
   ("material", .prim (.pstr "default"))]

def stWithObj : ViewerState := { st0 with objects := [("cube", objA)] }

def stDisabled : ViewerState := initialState ("viewer_a") false

def scopeFood : Scope := [("food", .vint 1)]

/-- A material update dict carrying an unrecognized type tag. -/
def fancyDict : List (String × Prim) :=
  [("type", .pstr "FancyMaterial"), ("roughness", .pint 3)]

/-- An update payload with a failing material dict plus one further key. -/
def updatesC8 : List (String × Value) :=
  [("material", .dict fancyDict), ("visible", .prim (.pint 0))]

def objB : PyObj := [("points", .arr [.pint 0, .pint 1])]

def ctrlSlider : PyObj :=
  [("name", .prim (.pstr "alpha")), ("value", .prim (.prat (mkRat 1 2)))]

-- ---------------------------------------------------------------------------
-- Association-list lemmas.
-- ---------------------------------------------------------------------------

theorem assocGet_cons (p : String × α) (rest : List (String × α)) (k : String) :
    assocGet (p :: rest) k = if p.1 = k then some p.2 else assocGet rest k := by
  by_cases h : p.1 = k
  · simp [assocGet, List.find?_cons_of_pos, h]
  · simp [assocGet, List.find?_cons_of_neg, h]

theorem keyMem_cons (p : String × α) (rest : List (String × α)) (k : String) :
    keyMem (p :: rest) k = ((p.1 == k) || keyMem rest k) := by
  simp [keyMem]

theorem assocSet_cons (p : String × α) (rest : List (String × α)) (k : String)
    (v : α) :
    assocSet (p :: rest) k v =
      if p.1 = k then (k, v) :: rest else p :: assocSet rest k v := by
  by_cases h : p.1 = k <;> simp [assocSet, h]

theorem assocGet_assocSet_self (l : List (String × α)) (k : String) (v : α) :
    assocGet (assocSet l k v) k = some v := by
  induction l with
  | nil => simp [assocSet, assocGet_cons]
  | cons p rest ih =>
    rw [assocSet_cons]
    by_cases h : p.1 = k
    · simp [h, assocGet_cons]
    · simp [h, assocGet_cons, ih]

theorem assocGet_assocSet_ne (l : List (String × α)) (k k' : String) (v : α)
    (h : k' ≠ k) : assocGet (assocSet l k v) k' = assocGet l k' := by
  induction l with
  | nil =>
    rw [show assocSet ([] : List (String × α)) k v = [(k, v)] from rfl,
      assocGet_cons, if_neg (fun hh => h hh.symm)]
  | cons p rest ih =>
    rw [assocSet_cons]
    by_cases hp : p.1 = k
    · rw [if_pos hp, assocGet_cons, assocGet_cons, if_neg (fun hh => h hh.symm),
        if_neg (fun hh => h (hp ▸ hh).symm)]
    · rw [if_neg hp, assocGet_cons, assocGet_cons, ih]

theorem keyMem_assocSet (l : List (String × α)) (k k' : String) (v : α) :
    keyMem (assocSet l k v) k' = (keyMem l k' || (k == k')) := by
  induction l with
  | nil => simp [assocSet, keyMem, Bool.or_comm]
  | cons p rest ih =>
    rw [assocSet_cons]
    by_cases hp : p.1 = k
    · rw [if_pos hp, keyMem_cons, keyMem_cons, hp]
      cases hb : (k == k')
      · simp [hb]
      · simp [hb]
    · rw [if_neg hp, keyMem_cons, keyMem_cons, ih, Bool.or_assoc]

theorem assocSet_of_keyMem_eq_false (l : List (String × α)) (k : String) (v : α)
    (h : keyMem l k = false) : assocSet l k v = l ++ [(k, v)] := by
  induction l with
  | nil => simp [assocSet]
  | cons p rest ih =>
    rw [keyMem_cons, Bool.or_eq_false_iff] at h
    rw [assocSet_cons, if_neg (by simpa using h.1), ih h.2]
    simp

theorem keyMem_append (l₁ l₂ : List (String × α)) (k : String) :
    keyMem (l₁ ++ l₂) k = (keyMem l₁ k || keyMem l₂ k) := by
  simp [keyMem, List.any_append]

theorem foldl_assocSet_of_disjoint (regs : List (String × α)) :
    ∀ acc : List (String × α),
      (∀ p ∈ regs, keyMem acc p.1 = false) →
      (regs.map Prod.fst).Nodup →
      regs.foldl (fun m p => assocSet m p.1 p.2) acc = acc ++ regs := by
  induction regs with
  | nil => intro acc _ _; simp
  | cons q rest ih =>
    intro acc hdisj hnodup
    have hq : keyMem acc q.1 = false := hdisj q (by simp)
    have hstep : assocSet acc q.1 q.2 = acc ++ [q] := by
      simpa using assocSet_of_keyMem_eq_false acc q.1 q.2 hq
    simp only [List.foldl_cons, hstep]
    have hnd : (rest.map Prod.fst).Nodup := (List.nodup_cons.mp (by simpa using hnodup)).2
    have hq1 : q.1 ∉ rest.map Prod.fst := (List.nodup_cons.mp (by simpa using hnodup)).1
    have hdisj' : ∀ p ∈ rest, keyMem (acc ++ [q]) p.1 = false := by
      intro p hp
      have h1 : keyMem acc p.1 = false := hdisj p (List.mem_cons_of_mem _ hp)
      have h2 : q.1 ≠ p.1 := by
        intro hcontra
        exact hq1 (hcontra ▸ List.mem_map_of_mem Prod.fst hp)
      rw [keyMem_append, h1]
      simp [keyMem, h2]
    rw [ih (acc ++ [q]) hdisj' hnd]
    simp

-- ---------------------------------------------------------------------------
-- sortDedup lemmas.
-- ---------------------------------------------------------------------------

theorem charListLe_total (la lb : List Char) :
    charListLe la lb = true ∨ charListLe lb la = true := by
  induction la generalizing lb with
  | nil => left; rfl
  | cons a as ih =>
    cases lb with
    | nil => right; rfl
    | cons b bs =>
      by_cases hab : a = b
      · subst hab
        rcases ih bs with h | h
        · left; simpa [charListLe] using h
        · right; simpa [charListLe] using h
      · rcases lt_or_gt_of_ne hab with h | h
        · left; simp [charListLe, hab, h]
        · right; simp [charListLe, Ne.symm hab, h]

theorem charListLe_trans (la lb lc : List Char)
    (h1 : charListLe la lb = true) (h2 : charListLe lb lc = true) :
    charListLe la lc = true := by
  induction la generalizing lb lc with
  | nil => rfl
  | cons a as ih =>
    cases lb with
    | nil => simp [charListLe] at h1
    | cons b bs =>
      cases lc with
      | nil => simp [charListLe] at h2
      | cons c cs =>
        by_cases hab : a = b <;> by_cases hbc : b = c
        · subst hab; subst hbc
          simp only [charListLe, if_pos rfl] at h1 h2 ⊢
          exact ih bs cs h1 h2
        · subst hab
          simp only [charListLe, if_pos rfl] at h1
          simp only [charListLe, if_neg hbc, decide_eq_true_eq] at h2
          simp [charListLe, ne_of_lt h2, h2]
        · subst hbc
          simp only [charListLe, if_neg hab, decide_eq_true_eq] at h1
          simp [charListLe, hab, h1]
        · simp only [charListLe, if_neg hab, decide_eq_true_eq] at h1
          simp only [charListLe, if_neg hbc, decide_eq_true_eq] at h2
          have hac : a < c := lt_trans h1 h2
          simp [charListLe, ne_of_lt hac, hac]

theorem mem_sortDedup (a : String) (l : List String) : a ∈ sortDedup l ↔ a ∈ l := by
  unfold sortDedup
  rw [(List.perm_insertionSort _ _).mem_iff]
  exact List.mem_dedup

theorem sorted_sortDedup (l : List String) :
    (sortDedup l).Sorted (fun a b => strLe a b = true) := by
  haveI : IsTotal String (fun a b => strLe a b = true) :=
    ⟨fun a b => charListLe_total a.toList b.toList⟩
  haveI : IsTrans String (fun a b => strLe a b = true) :=
    ⟨fun a b c => charListLe_trans a.toList b.toList c.toList⟩
  exact List.sorted_insertionSort _ _

theorem nodup_sortDedup (l : List String) : (sortDedup l).Nodup :=
  (List.perm_insertionSort _ _).nodup_iff.mpr (List.nodup_dedup l)

-- ---------------------------------------------------------------------------
-- Registration fold lemmas.
-- ---------------------------------------------------------------------------

theorem foldl_registerSceneObject (regs : List (String × PyObj)) :
    ∀ st : ViewerState,
      regs.foldl (fun s p => (registerSceneObject s p.1 p.2).1) st =
        { st with objects := regs.foldl (fun m p => assocSet m p.1 p.2) st.objects } := by
  induction regs with
  | nil => intro st; rfl
  | cons q rest ih =>
    intro st
    simp only [List.foldl_cons]
    rw [ih]
    rfl

theorem foldl_registerControl (regs : List (String × PyObj)) :
    ∀ st : ViewerState,
      regs.foldl (fun s p => (registerControl s p.1 p.2).1) st =
        { st with uiControls := regs.foldl (fun m p => assocSet m p.1 p.2) st.uiControls } := by
  induction regs with
  | nil => intro st; rfl
  | cons q rest ih =>
    intro st
    simp only [List.foldl_cons]
    rw [ih]
    rfl

-- ---------------------------------------------------------------------------
-- Update-loop lemmas.
-- ---------------------------------------------------------------------------

theorem keyMem_applyUpdates (decode : List (String × Prim) → Except String MaterialObj)
    (updates : List (String × Value)) :
    ∀ (obj : PyObj) (k : String),
      keyMem (applyUpdates decode obj updates).1 k = keyMem obj k := by
  induction updates with
  | nil => intro obj k; rfl
  | cons q rest ih =>
    intro obj k
    obtain ⟨qk, qv⟩ := q
    by_cases h : keyMem obj qk = true
    · simp only [applyUpdates, h, if_true]
      rw [ih, keyMem_assocSet]
      cases hb : (qk == k)
      · simp
      · have hk : qk = k := by simpa using hb
        subst hk
        simp [h]
    · simp only [applyUpdates]
      rw [if_neg h]
      exact ih obj k

theorem assocGet_applyUpdates_not_mem
    (decode : List (String × Prim) → Except String MaterialObj)
    (updates : List (String × Value)) :
    ∀ (obj : PyObj) (k : String), k ∉ updates.map Prod.fst →
      assocGet (applyUpdates decode obj updates).1 k = assocGet obj k := by
  induction updates with
  | nil => intro obj k _; rfl
  | cons q rest ih =>
    intro obj k hk
    obtain ⟨qk, qv⟩ := q
    have hne : k ≠ qk := by
      intro hcontra
      exact hk (by simp [hcontra])
    have hrest : k ∉ rest.map Prod.fst := by
      intro hcontra
      exact hk (by simp [hcontra])
    by_cases h : keyMem obj qk = true
    · simp only [applyUpdates, h, if_true]
      rw [ih _ _ hrest, assocGet_assocSet_ne _ _ _ _ hne]
    · simp only [applyUpdates]
      rw [if_neg h]
      exact ih obj k hrest

theorem assocGet_applyUpdates_mem
    (decode : List (String × Prim) → Except String MaterialObj)
    (updates : List (String × Value)) :
    ∀ (obj : PyObj) (k : String) (v : Value),
      (updates.map Prod.fst).Nodup → (k, v) ∈ updates → keyMem obj k = true →
      assocGet (applyUpdates decode obj updates).1 k =
        some (updatedValue decode k v) := by
  induction updates with
  | nil => intro obj k v _ hmem _; cases hmem
  | cons q rest ih =>
    intro obj k v hnodup hmem hattr
    obtain ⟨qk, qv⟩ := q
    have hnd : qk ∉ rest.map Prod.fst ∧ (rest.map Prod.fst).Nodup := by
      rw [List.map_cons, List.nodup_cons] at hnodup
      exact hnodup
    rcases List.mem_cons.mp hmem with heq | hrest
    · have hk : k = qk := congrArg Prod.fst heq
      have hv : v = qv := congrArg Prod.snd heq
      subst hk
      subst hv
      simp only [applyUpdates, hattr, if_true]
      rw [assocGet_applyUpdates_not_mem decode rest _ k hnd.1, assocGet_assocSet_self]
    · have hk : k ≠ qk := by
        intro hcontra
        exact hnd.1 (hcontra ▸ List.mem_map_of_mem Prod.fst hrest)
      by_cases h : keyMem obj qk = true
      · simp only [applyUpdates, h, if_true]
        refine ih _ _ _ hnd.2 hrest ?_
        rw [keyMem_assocSet, hattr]
        simp
      · simp only [applyUpdates]
        rw [if_neg h]
        exact ih _ _ _ hnd.2 hrest hattr

theorem warning_mem_applyUpdates
    (decode : List (String × Prim) → Except String MaterialObj)
    (updates : List (String × Value)) :
    ∀ (obj : PyObj) (k : String) (v : Value) (w : String),
      (k, v) ∈ updates → keyMem obj k = true → w ∈ updateWarnings decode k v →
      w ∈ (applyUpdates decode obj updates).2 := by
  induction updates with
  | nil => intro obj k v w hmem _ _; cases hmem
  | cons q rest ih =>
    intro obj k v w hmem hattr hw
    obtain ⟨qk, qv⟩ := q
    rcases List.mem_cons.mp hmem with heq | hrest
    · have hk : k = qk := congrArg Prod.fst heq
      have hv : v = qv := congrArg Prod.snd heq
      subst hk
      subst hv
      simp only [applyUpdates, hattr, if_true]
      exact List.mem_append_left _ hw
    · by_cases h : keyMem obj qk = true
      · simp only [applyUpdates, h, if_true]
        refine List.mem_append_right _ (ih _ _ _ _ hrest ?_ hw)
        rw [keyMem_assocSet, hattr]
        simp
      · simp only [applyUpdates]
        rw [if_neg h]
        exact ih _ _ _ _ hrest hattr hw

-- ---------------------------------------------------------------------------
-- Small string facts.
-- ---------------------------------------------------------------------------

theorem append_newline_ne_empty (s : String) : ¬(s ++ "\n" = "") := by
  intro hcontra
  have h2 := congrArg String.data hcontra
  simp at h2

theorem tracebackFormatExc_ne_empty (e : PyErr) : ¬(tracebackFormatExc e = "") := by
  intro hcontra
  have h2 := congrArg String.data hcontra
  simp [tracebackFormatExc] at h2

theorem mem_sortDedup_filter (p : String → Bool) (names : List String) (s : String) :
    s ∈ sortDedup (names.filter p) ↔ s ∈ names ∧ p s = true := by
  rw [mem_sortDedup]
  exact List.mem_filter

theorem identCompletions_eq (bNames : List String) (g l : Scope) (src : List Char)
    (preChars : List Char) (h : trailingIdent src = some preChars) :
    identCompletions bNames g l src =
      sortDedup (((g.map Prod.fst) ++ (l.map Prod.fst) ++ bNames).filter
        (fun n => pyStartsWith n (String.mk preChars))) := by
  simp [identCompletions, h]

-- ---------------------------------------------------------------------------
-- Claims.
-- ---------------------------------------------------------------------------

/-- C3: against the claim, a fulfilled screenshot request with
`filename = None` does not return a pixel array: the code reads the local
variable `ext` outside the `if filename:` block that is the only place
assigning it, raising UnboundLocalError (a bug — the function's own
docstring declares `filename` optional and promises an array, or `None`
only on timeout).  The remaining conjuncts evaluate the code on the
healthy paths: `.png` filenames decode to 4 channels, `.jpg` to 3 (after
stripping the data-URI header), and `None` is returned exactly on
timeout or an empty reply payload. -/
theorem c3_screenshot_filename_none_raises :
    screenshotBody none (some ("iVBORw0KGgo")) true = .error (.unboundLocal "ext")
    ∧ screenshotBody (some ("shot.png")) (some ("iVBORw0KGgo")) true =
        .ok (some (4, "iVBORw0KGgo", some ("shot.png")))
    ∧ screenshotBody (some ("shot.jpg")) (some ("data:image/jpeg;base64,AAA")) true =
        .ok (some (3, "AAA", some ("shot.jpg")))
    ∧ screenshotBody none none true = .ok none
    ∧ screenshotBody none (some ("")) true = .ok none
    ∧ screenshotBody none (some ("iVBORw0KGgo")) false = .ok none := by
  refine ⟨rfl, rfl, rfl, rfl, rfl, rfl⟩

/-- C9 counterexample: the claim reads the request kind as the event name
"after removing the `request_` prefix", but the code removes every
occurrence of the substring.  For the event name
`request_request_screenshot` the prefix reading gives
`request_screenshot`, which is not a known kind, so the claim demands a
ValueError; the code instead strips both occurrences, accepts the
message, raises nothing, and modifies the screenshot slot. -/
theorem c9_counterexample :
    removeRequestPrefixOnce ("request_request_screenshot") = ("request_screenshot")
    ∧ (requestEvents.contains ("request_screenshot")) = false
    ∧ handle_state_request st0 (some ("viewer_a")) ("request_request_screenshot")
        (some (Value.prim (.pstr "img"))) =
      ({ st0 with slots :=
          [("camera_info", ⟨false, none⟩), ("selected_object", ⟨false, none⟩),
           ("screenshot", ⟨true, some (Value.prim (.pstr "img"))⟩)] }, none)
    ∧ (emit_state_request st0 (some ("viewer_a")) ("request_request_screenshot")
        none).2.2 = none := by
  refine ⟨rfl, rfl, ?_, rfl⟩
  rfl

/-- C9 (amended): for every state-request payload with matching
`viewer_id` whose event name, after removing every occurrence of the
substring `request_` (as the code's `str.replace` does), is not one of
`camera_info`, `selected_object`, `screenshot`, both `emit_state_request`
and `handle_state_request` raise a ValueError, and neither modifies any
request slot or completion signal (the raise precedes every slot
mutation, so the state is returned unchanged). -/
theorem c9_unknown_kind_fails_fast (st : ViewerState) (eventName : String)
    (d p : Option Value)
    (h : (requestEvents.contains (requestBasename eventName)) = false) :
    emit_state_request st (some st.viewerId) eventName d =
      (st, [], some (.valueError ("Unknown state request event: " ++ eventName)))
    ∧ handle_state_request st (some st.viewerId) eventName p =
      (st, some (.valueError ("Unknown state request event: " ++ eventName))) := by
  have h' : requestBasename eventName ∉ requestEvents := by simpa using h
  constructor
  · simp [emit_state_request, h']
  · simp [handle_state_request, h']

theorem c9_unknown_kind_fails_fast_witness :
    (requestEvents.contains (requestBasename ("request_bogus"))) = false
    ∧ (emit_state_request st0 (some st0.viewerId) ("request_bogus") none =
        (st0, [], some (.valueError ("Unknown state request event: request_bogus")))
      ∧ handle_state_request st0 (some st0.viewerId) ("request_bogus") none =
        (st0, some (.valueError ("Unknown state request event: request_bogus")))) :=
  ⟨by decide, c9_unknown_kind_fails_fast st0 ("request_bogus") none none (by decide)⟩

/-- C10: an `update_object` message with matching `viewer_id` whose `id`
names no registered scene object is a silent no-op — no error, no entity
mutation, no `update_object` trigger — while for a known object the
fields are applied and the `update_object` event is triggered. -/
theorem c10_update_unknown_object_noop
    (decode : List (String × Prim) → Except String MaterialObj)
    (st : ViewerState) (oid : String) (updates : List (String × Value)) :
    (assocGet st.objects oid = none →
      handle_update_object decode st (some st.viewerId) (some oid) updates =
        (st, Effects.nil))
    ∧ (∀ obj, assocGet st.objects oid = some obj →
        handle_update_object decode st (some st.viewerId) (some oid) updates =
          ({ st with objects := assocSet st.objects oid (applyUpdates decode obj updates).1 },
           ⟨[], [.updateObject oid updates], (applyUpdates decode obj updates).2⟩)) := by
  constructor
  · intro h
    simp [handle_update_object, h]
  · intro obj h
    simp [handle_update_object, h]

theorem c10_update_unknown_object_noop_witness :
    handle_update_object failDecode stWithObj (some stWithObj.viewerId)
      (some ("ghost")) [("visible", .prim (.pint 0))] = (stWithObj, Effects.nil) :=
  (c10_update_unknown_object_noop failDecode stWithObj ("ghost")
    [("visible", .prim (.pint 0))]).1 (by decide)

/-- C2 counterexample: against the claim, a successful pull does not
return the slot to IDLE.  After `camera()` (modelled as the
emit/handle/wait sequence) returns the payload, the completion signal is
still set and the result slot still holds the payload; nothing in the
pull call clears them. -/
theorem c2_counterexample :
    (cameraCall st0 (some (some (Value.prim (.pint 7))))).1 =
      some (Value.prim (.pint 7))
    ∧ assocGet (cameraCall st0 (some (some (Value.prim (.pint 7))))).2.slots
        ("camera_info") = some ⟨true, some (Value.prim (.pint 7))⟩ := by
  refine ⟨rfl, rfl⟩

/-- C2 (amended): for every request kind in {camera_info,
selected_object, screenshot}, the pull call's wait resolves to the
no-data sentinel `None` when no matching `handle_state_request` arrives
before the timeout (the wait itself cannot block past the timeout — the
timeout outcome is modelled as the completion flag's state at expiry),
and to the stored payload when completion is signalled; in the latter
case the slot stays FULFILLED (signal set, payload stored) — it is
returned to IDLE only by the next `emit_state_request` of that kind,
which clears the signal and empties the result slot. -/
theorem c2_pull_wait_semantics (st : ViewerState) (d : Option Value)
    (rd : Option Value) :
    ((cameraCall st none).1 = none
      ∧ (selectedObjectCall st none).1 = none
      ∧ (screenshotCall st rd none).1 = none)
    ∧ ((cameraCall st (some d)).1 = d
      ∧ assocGet (cameraCall st (some d)).2.slots ("camera_info") = some ⟨true, d⟩)
    ∧ ((selectedObjectCall st (some d)).1 = d
      ∧ assocGet (selectedObjectCall st (some d)).2.slots ("selected_object") =
          some ⟨true, d⟩)
    ∧ ((screenshotCall st rd (some d)).1 = d
      ∧ assocGet (screenshotCall st rd (some d)).2.slots ("screenshot") =
          some ⟨true, d⟩)
    ∧ (assocGet (emit_state_request st (some st.viewerId) ("request_camera_info")
          none).1.slots ("camera_info") = some ⟨false, none⟩
      ∧ assocGet (emit_state_request st (some st.viewerId) ("request_selected_object")
          none).1.slots ("selected_object") = some ⟨false, none⟩
      ∧ assocGet (emit_state_request st (some st.viewerId) ("request_screenshot")
          rd).1.slots ("screenshot") = some ⟨false, none⟩) := by
  have hc : requestBasename ("request_camera_info") = ("camera_info") := by decide
  have hs : requestBasename ("request_selected_object") = ("selected_object") := by decide
  have hh : requestBasename ("request_screenshot") = ("screenshot") := by decide
  have hmc : ("camera_info") ∈ requestEvents := by decide
  have hms : ("selected_object") ∈ requestEvents := by decide
  have hmh : ("screenshot") ∈ requestEvents := by decide
  refine ⟨⟨?_, ?_, ?_⟩, ⟨?_, ?_⟩, ⟨?_, ?_⟩, ⟨?_, ?_⟩, ?_, ?_, ?_⟩ <;>
    simp [cameraCall, selectedObjectCall, screenshotCall, pullCall, pullWait,
      emit_state_request, handle_state_request, hc, hs, hh, hmc, hms, hmh,
      assocGet_assocSet_self]

/-- C8: an update whose `material` value is a dict carrying a type tag
for which typed-material reconstruction raises does not abort: the
handler returns normally, the entity's `material` field becomes the raw
dict, the decode warning is surfaced, every other key of the update is
still applied, and the `update_object` event still fires. -/
theorem c8_material_decode_failure_nonfatal
    (decode : List (String × Prim) → Except String MaterialObj)
    (st : ViewerState) (oid : String) (obj : PyObj)
    (updates : List (String × Value)) (entries : List (String × Prim)) (e : String)
    (hobj : assocGet st.objects oid = some obj)
    (hnodup : (updates.map Prod.fst).Nodup)
    (hmem : ("material", Value.dict entries) ∈ updates)
    (htag : keyMem entries "type" = true)
    (hdec : decode entries = .error e)
    (hattr : keyMem obj "material" = true) :
    assocGet (handle_update_object decode st (some st.viewerId) (some oid)
        updates).1.objects oid = some (applyUpdates decode obj updates).1
    ∧ assocGet (applyUpdates decode obj updates).1 "material" =
        some (Value.dict entries)
    ∧ materialWarning e ∈
        (handle_update_object decode st (some st.viewerId) (some oid)
          updates).2.warnings
    ∧ (handle_update_object decode st (some st.viewerId) (some oid)
        updates).2.triggers = [.updateObject oid updates]
    ∧ (∀ k v, (k, v) ∈ updates → k ≠ "material" → keyMem obj k = true →
        assocGet (applyUpdates decode obj updates).1 k = some v) := by
  have hu : handle_update_object decode st (some st.viewerId) (some oid) updates =
      ({ st with objects := assocSet st.objects oid (applyUpdates decode obj updates).1 },
       ⟨[], [.updateObject oid updates], (applyUpdates decode obj updates).2⟩) := by
    simp [handle_update_object, hobj]
  refine ⟨?_, ?_, ?_, ?_, ?_⟩
  · rw [hu]
    exact assocGet_assocSet_self st.objects oid _
  · rw [assocGet_applyUpdates_mem decode updates obj _ _ hnodup hmem hattr]
    simp [updatedValue, htag, hdec]
  · rw [hu]
    refine warning_mem_applyUpdates decode updates obj _ _ _ hmem hattr ?_
    simp [updateWarnings, htag, hdec]
  · rw [hu]
  · intro k v hkv hkm hk
    rw [assocGet_applyUpdates_mem decode updates obj k v hnodup hkv hk]
    cases v <;> simp [updatedValue, hkm]

theorem c8_material_decode_failure_nonfatal_witness :
    assocGet (handle_update_object failDecode stWithObj (some stWithObj.viewerId)
        (some ("cube")) updatesC8).1.objects ("cube") =
      some (applyUpdates failDecode objA updatesC8).1
    ∧ assocGet (applyUpdates failDecode objA updatesC8).1 "material" =
        some (Value.dict fancyDict)
    ∧ materialWarning ("unknown material type tag") ∈
        (handle_update_object failDecode stWithObj (some stWithObj.viewerId)
          (some ("cube")) updatesC8).2.warnings
    ∧ (handle_update_object failDecode stWithObj (some stWithObj.viewerId)
        (some ("cube")) updatesC8).2.triggers = [.updateObject ("cube") updatesC8]
    ∧ (∀ k v, (k, v) ∈ updatesC8 → k ≠ "material" → keyMem objA k = true →
        assocGet (applyUpdates failDecode objA updatesC8).1 k = some v) :=
  c8_material_decode_failure_nonfatal failDecode stWithObj ("cube") objA updatesC8
    fancyDict ("unknown material type tag") (by decide) (by decide) (by decide)
    (by decide) rfl (by decide)

/-- C1 counterexample: against the claim, the full-state resync handler
(`handle_request_state`, bound to `request_state_from_client`) never
checks the message's `viewer_id`: a message addressed to a different
viewer still triggers the resync, emitting the console-enabled flag and
the default-camera reset on the transport. -/
theorem c1_counterexample :
    (InMsg.requestState (some ("someone_else"))).viewerIdField ≠ some st0.viewerId
    ∧ (handleMessage deps0 st0 (.requestState (some ("someone_else")))).2.1.emits =
        [.consoleMeta true, .setCamera defaultCameraState] := by
  refine ⟨by decide, rfl⟩

/-- C1 (amended): every inbound handler of the claim's list except the
full-state resync — update_object, console_command, console_complete,
viewer_heartbeat, the state-request replies, and the events.* family —
is a strict no-op on a `viewer_id` mismatch: state unchanged, nothing
emitted, no trigger, no console execution, no exception.  The resync
handler `handle_request_state` instead ignores the `viewer_id` entirely
and behaves exactly as for a matching message. -/
theorem c1_mismatch_drops (deps : Deps) (st : ViewerState) (msg : InMsg)
    (h : msg.viewerIdField ≠ some st.viewerId) :
    (msg.isRequestState = false →
      handleMessage deps st msg = (st, Effects.nil, none))
    ∧ (msg.isRequestState = true →
      handleMessage deps st msg =
        handleMessage deps st (.requestState (some st.viewerId))) := by
  cases msg <;>
    simp_all [handleMessage, handle_update_object, handle_console_command,
      handle_console_complete, handle_state_request, InMsg.isRequestState,
      InMsg.viewerIdField, Effects.nil]

theorem c1_mismatch_drops_witness :
    handleMessage deps0 stWithObj
      (.updateObject (some ("someone_else")) (some ("cube"))
        [("visible", .prim (.pint 0))]) = (stWithObj, Effects.nil, none) :=
  (c1_mismatch_drops deps0 stWithObj
    (.updateObject (some ("someone_else")) (some ("cube"))
      [("visible", .prim (.pint 0))]) (by decide)).1 rfl

/-- C4: handling a full-state resync request over a session built by any
sequence of scene-object adds and control adds with distinct names, and
any retained console buffer, emits exactly: (1) the console-enabled
flag, (2) `set_camera` with the fixed default camera (perspective, fov
50, near 0.1, far 1000), (3) one add-geometry message per scene object
in registration order, (4) one add-control message per control in
registration order, (5) the retained console buffer as colored text
segments (no message when the buffer is empty). -/
theorem c4_resync_order (vid : String) (enabled : Bool) (buf : String)
    (objRegs ctrlRegs : List (String × PyObj))
    (h1 : (objRegs.map Prod.fst).Nodup) (h2 : (ctrlRegs.map Prod.fst).Nodup) :
    handle_request_state (sessionAfterAdds vid enabled objRegs ctrlRegs buf) =
      [.consoleMeta enabled, .setCamera defaultCameraState]
      ++ objRegs.map (fun p => .addGeometry p.1 p.2)
      ++ ctrlRegs.map (fun p => .addControl p.1 p.2)
      ++ (if buf = "" then [] else [.consoleOutput (splitTextToSegments buf)]) := by
  have ho := foldl_assocSet_of_disjoint objRegs [] (fun p _ => rfl) h1
  have hc := foldl_assocSet_of_disjoint ctrlRegs [] (fun p _ => rfl) h2
  simp only [sessionAfterAdds]
  rw [foldl_registerSceneObject, foldl_registerControl]
  simp [handle_request_state, initialState, ho, hc]

theorem c4_resync_order_witness :
    ((([("mesh_a", objA), ("pts_b", objB)].map Prod.fst).Nodup : Prop)
      ∧ (([("alpha", ctrlSlider)].map Prod.fst).Nodup : Prop))
    ∧ handle_request_state
        (sessionAfterAdds ("viewer_a") true [("mesh_a", objA), ("pts_b", objB)]
          [("alpha", ctrlSlider)] ("hello\n")) =
      [.consoleMeta true, .setCamera defaultCameraState]
      ++ [.addGeometry ("mesh_a") objA, .addGeometry ("pts_b") objB]
      ++ [.addControl ("alpha") ctrlSlider]
      ++ [.consoleOutput (splitTextToSegments ("hello\n"))] :=
  ⟨⟨by decide, by decide⟩, by
    have h := c4_resync_order ("viewer_a") true ("hello\n")
      [("mesh_a", objA), ("pts_b", objB)] [("alpha", ctrlSlider)]
      (by decide) (by decide)
    simpa using h⟩

/-- C5: console execution on an enabled session first compiles the
command in expression mode — a command that is syntactically a single
expression is evaluated, with a non-None result's printable
representation plus a newline appended to the output — and falls back to
statement execution exactly when expression compilation raises a syntax
error (in the embedding, exactly for `stmtsCmd` commands).  Assignments
bind into the scope with no output, so a later read of the variable
prints its value; a raising command yields a red (error-colored) segment
containing the error name while the handler returns normally.  The last
conjunct is the concrete `1+1` ↦ `2\n` case. -/
theorem c5_console_execution (st : ViewerState) (e : PyExpr) (x : String)
    (n : Int) (errName : String) :
    (∀ v, evalExpr st.scopeG st.scopeL e = .ok v → v ≠ .vnone →
      executeConsoleCommand st (.exprCmd e) =
        ({ st with printBuffer := st.printBuffer ++ (reprVal v ++ "\n") },
         [.consoleOutput [⟨reprVal v ++ "\n", none⟩]]))
    ∧ (evalExpr st.scopeG st.scopeL e = .ok .vnone →
        executeConsoleCommand st (.exprCmd e) = (st, []))
    ∧ (∀ stmts l', execStmts st.scopeG st.scopeL stmts = (l', none) →
        executeConsoleCommand st (.stmtsCmd stmts) = ({ st with scopeL := l' }, []))
    ∧ (executeConsoleCommand st (.stmtsCmd [.assign x (.lit (.vint n))]) =
        ({ st with scopeL := assocSet st.scopeL x (.vint n) }, []))
    ∧ (executeConsoleCommand { st with scopeL := assocSet st.scopeL x (.vint n) }
          (.exprCmd (.var x)) =
        ({ st with scopeL := assocSet st.scopeL x (.vint n),
                   printBuffer := st.printBuffer ++ (toString n ++ "\n") },
         [.consoleOutput [⟨toString n ++ "\n", none⟩]]))
    ∧ (executeConsoleCommand st (.exprCmd (.raiseE errName)) =
        ({ st with printBuffer :=
              st.printBuffer ++ tracebackFormatExc (.userError errName) },
         [.consoleOutput [⟨tracebackFormatExc (.userError errName), some ("red")⟩]]))
    ∧ (executeConsoleCommand st0 (.exprCmd (.add (.lit (.vint 1)) (.lit (.vint 1)))) =
        ({ st0 with printBuffer := "2\n" }, [.consoleOutput [⟨"2\n", none⟩]])) := by
  refine ⟨?_, ?_, ?_, ?_, ?_, ?_, ?_⟩
  · intro v hv hnv
    simp only [executeConsoleCommand, hv]
    rw [if_neg hnv]
    simp [emitConsoleText, splitTextToSegments, append_newline_ne_empty (reprVal v)]
  · intro hv
    simp [executeConsoleCommand, hv]
  · intro stmts l' hexec
    simp [executeConsoleCommand, hexec]
  · simp [executeConsoleCommand, execStmts, evalExpr]
  · simp only [executeConsoleCommand, evalExpr, lookupName,
      assocGet_assocSet_self st.scopeL x (PyVal.vint n)]
    rw [if_neg (by intro hcontra; cases hcontra)]
    simp [emitConsoleText, splitTextToSegments, reprVal,
      append_newline_ne_empty (toString n)]
  · simp only [executeConsoleCommand, evalExpr]
    simp [emitConsoleText, splitTextToSegments,
      tracebackFormatExc_ne_empty (.userError errName)]
  · rfl

theorem c5_console_execution_witness :
    executeConsoleCommand st0 (.exprCmd (.lit (.vint 3))) =
      ({ st0 with printBuffer := st0.printBuffer ++ (reprVal (.vint 3) ++ "\n") },
       [.consoleOutput [⟨reprVal (.vint 3) ++ "\n", none⟩]]) :=
  (c5_console_execution st0 (.lit (.vint 3)) ("x") 5 ("ZeroDivisionError")).1
    (.vint 3) rfl (by decide)

/-- C6: while the interactive console is disabled, the first
console_command or console_complete message with matching viewer_id
emits exactly one warning segment (yellow), performs no execution or
completion, and only flips the warned flag and appends the warning to
the retained buffer; afterwards (flag set, console still disabled) every
further such message emits nothing and changes nothing. -/
theorem c6_console_disabled_warn_once (deps : Deps) (st : ViewerState)
    (cmd1 cmd2 : Option Cmd) (t1 t2 : String)
    (hdis : st.interactiveConsoleEnabled = false)
    (hflag : st.consoleDisabledWarningEmitted = false) :
    (handleMessage deps st (.consoleCommand (some st.viewerId) cmd1) =
      ({ st with consoleDisabledWarningEmitted := true,
                 printBuffer := st.printBuffer ++ warnConsoleDisabledText },
       ⟨[.consoleOutput [⟨warnConsoleDisabledText, some ("yellow")⟩]], [], []⟩, none))
    ∧ (handleMessage deps st (.consoleComplete (some st.viewerId) t1) =
      ({ st with consoleDisabledWarningEmitted := true,
                 printBuffer := st.printBuffer ++ warnConsoleDisabledText },
       ⟨[.consoleOutput [⟨warnConsoleDisabledText, some ("yellow")⟩]], [], []⟩, none))
    ∧ (∀ st' : ViewerState, st'.interactiveConsoleEnabled = false →
        st'.consoleDisabledWarningEmitted = true →
        handleMessage deps st' (.consoleCommand (some st'.viewerId) cmd2) =
          (st', Effects.nil, none)
        ∧ handleMessage deps st' (.consoleComplete (some st'.viewerId) t2) =
          (st', Effects.nil, none)) := by
  have hne : ¬(warnConsoleDisabledText = "") := by decide
  refine ⟨?_, ?_, ?_⟩
  · simp [handleMessage, handle_console_command, warnConsoleDisabledOnce, hdis,
      hflag, emitConsoleText, splitTextToSegments, hne]
  · simp [handleMessage, handle_console_complete, warnConsoleDisabledOnce, hdis,
      hflag, emitConsoleText, splitTextToSegments, hne]
  · intro st' hdis' hflag'
    constructor
    · simp [handleMessage, handle_console_command, warnConsoleDisabledOnce,
        hdis', hflag', Effects.nil]
    · simp [handleMessage, handle_console_complete, warnConsoleDisabledOnce,
        hdis', hflag', Effects.nil]

theorem c6_console_disabled_warn_once_witness :
    (handleMessage deps0 stDisabled
        (.consoleCommand (some stDisabled.viewerId)
          (some (.exprCmd (.lit (.vint 1))))) =
      ({ stDisabled with consoleDisabledWarningEmitted := true,
                         printBuffer := stDisabled.printBuffer ++ warnConsoleDisabledText },
       ⟨[.consoleOutput [⟨warnConsoleDisabledText, some ("yellow")⟩]], [], []⟩, none))
    ∧ (handleMessage deps0 stDisabled
        (.consoleComplete (some stDisabled.viewerId) ("pri")) =
      ({ stDisabled with consoleDisabledWarningEmitted := true,
                         printBuffer := stDisabled.printBuffer ++ warnConsoleDisabledText },
       ⟨[.consoleOutput [⟨warnConsoleDisabledText, some ("yellow")⟩]], [], []⟩, none))
    ∧ (∀ st' : ViewerState, st'.interactiveConsoleEnabled = false →
        st'.consoleDisabledWarningEmitted = true →
        handleMessage deps0 st'
            (.consoleCommand (some st'.viewerId) (some (.exprCmd (.lit (.vint 1))))) =
          (st', Effects.nil, none)
        ∧ handleMessage deps0 st' (.consoleComplete (some st'.viewerId) ("x")) =
          (st', Effects.nil, none)) :=
  c6_console_disabled_warn_once deps0 stDisabled
    (some (.exprCmd (.lit (.vint 1)))) (some (.exprCmd (.lit (.vint 1))))
    ("pri") ("x") rfl rfl

/-- C7 counterexample: against the claim, an input that contains a dot
is not always completed from the members of the evaluated before-dot
expression.  For the input `.foo` the text before the last dot is blank,
so the code falls through to the identifier branch and completes the
trailing identifier from the scope: with `dir` of every value empty
(third conjunct) the member-based reading could only produce an empty
reply, yet the code returns the scope name `food`. -/
theorem c7_counterexample :
    ((".foo").toList.contains '.') = true
    ∧ collectConsoleCompletions deps0 scopeFood scopeFood (".foo") = .ok ["food"]
    ∧ deps0.dirF = (fun _ => []) := by
  refine ⟨rfl, ?_, rfl⟩
  rfl

/-- C7 (amended): on an enabled console, if the input contains a dot and
the text before the last dot is non-blank, that text is evaluated as an
object expression and the reply is the sorted, de-duplicated list of its
member names starting with the partial attribute after the dot (members
starting with a double underscore are excluded when the partial is
empty); otherwise — no dot, or a blank before-dot text — the trailing
identifier prefix is matched against the union of global scope, local
scope and built-in names, sorted and de-duplicated; an empty completion
set is reported as an explicit `(no completions)` marker rather than an
empty response. -/
theorem c7_completions (deps : Deps) (g l : Scope) (command : String) :
    (∀ beforeDot afterDot target,
      rsplitDot (pyRstrip command.toList) = some (beforeDot, afterDot) →
      (pyStrip beforeDot).isEmpty = false →
      evalObjectExpr g l (pyStrip beforeDot) = .ok target →
      ∃ out, collectConsoleCompletions deps g l command = .ok out
        ∧ out.Sorted (fun a b => strLe a b = true) ∧ out.Nodup
        ∧ (∀ s, s ∈ out ↔ s ∈ deps.dirF target ∧
            (if String.mk afterDot ≠ "" then
              pyStartsWith s (String.mk afterDot) = true
             else pyStartsWith s ("__") = false)))
    ∧ (∀ preChars,
      rsplitDot (pyRstrip command.toList) = none →
      trailingIdent (pyRstrip command.toList) = some preChars →
      ∃ out, collectConsoleCompletions deps g l command = .ok out
        ∧ out.Sorted (fun a b => strLe a b = true) ∧ out.Nodup
        ∧ (∀ s, s ∈ out ↔
            (s ∈ g.map Prod.fst ∨ s ∈ l.map Prod.fst ∨ s ∈ deps.builtinNames)
            ∧ pyStartsWith s (String.mk preChars) = true))
    ∧ (∀ beforeDot afterDot preChars,
      rsplitDot (pyRstrip command.toList) = some (beforeDot, afterDot) →
      (pyStrip beforeDot).isEmpty = true →
      trailingIdent (pyRstrip command.toList) = some preChars →
      ∃ out, collectConsoleCompletions deps g l command = .ok out
        ∧ out.Sorted (fun a b => strLe a b = true) ∧ out.Nodup
        ∧ (∀ s, s ∈ out ↔
            (s ∈ g.map Prod.fst ∨ s ∈ l.map Prod.fst ∨ s ∈ deps.builtinNames)
            ∧ pyStartsWith s (String.mk preChars) = true))
    ∧ (∀ st : ViewerState, emitCompletionList st [] =
        ({ st with printBuffer := st.printBuffer ++ "(no completions)\n" },
         [.consoleOutput [⟨"(no completions)\n", some ("yellow")⟩]]))
    ∧ (collectConsoleCompletions deps0 [("primer", .vint 1)] [] ("pri") =
        .ok ["primer", "print"]) := by
  refine ⟨?_, ?_, ?_, ?_, ?_⟩
  · intro beforeDot afterDot target hsplit hne heval
    have hsrc : (pyRstrip command.toList).isEmpty = false := by
      cases hs : pyRstrip command.toList with
      | nil => rw [hs] at hsplit; simp [rsplitDot] at hsplit
      | cons c rest => rfl
    refine ⟨sortDedup (if String.mk afterDot ≠ "" then
        (deps.dirF target).filter (fun n => pyStartsWith n (String.mk afterDot))
      else (deps.dirF target).filter (fun n => !pyStartsWith n ("__"))),
      ?_, sorted_sortDedup _, nodup_sortDedup _, ?_⟩
    · simp only [collectConsoleCompletions, hsrc, hsplit, hne, heval]
      simp
    · intro s
      by_cases hpre : String.mk afterDot = ""
      · simp [hpre, mem_sortDedup_filter]
      · simp [hpre, mem_sortDedup_filter]
  · intro preChars hsplit hident
    have hsrc : (pyRstrip command.toList).isEmpty = false := by
      cases hs : pyRstrip command.toList with
      | nil => rw [hs] at hident; simp [trailingIdent] at hident
      | cons c rest => rfl
    refine ⟨sortDedup (((g.map Prod.fst) ++ (l.map Prod.fst) ++ deps.builtinNames).filter
        (fun n => pyStartsWith n (String.mk preChars))),
      ?_, sorted_sortDedup _, nodup_sortDedup _, ?_⟩
    · simp only [collectConsoleCompletions, hsrc, hsplit]
      rw [identCompletions_eq deps.builtinNames g l _ preChars hident]
      simp
    · intro s
      rw [mem_sortDedup_filter]
      simp [or_assoc]
  · intro beforeDot afterDot preChars hsplit hblank hident
    have hsrc : (pyRstrip command.toList).isEmpty = false := by
      cases hs : pyRstrip command.toList with
      | nil => rw [hs] at hsplit; simp [rsplitDot] at hsplit
      | cons c rest => rfl
    refine ⟨sortDedup (((g.map Prod.fst) ++ (l.map Prod.fst) ++ deps.builtinNames).filter
        (fun n => pyStartsWith n (String.mk preChars))),
      ?_, sorted_sortDedup _, nodup_sortDedup _, ?_⟩
    · simp only [collectConsoleCompletions, hsrc, hsplit, hblank]
      rw [identCompletions_eq deps.builtinNames g l _ preChars hident]
      simp
    · intro s
      rw [mem_sortDedup_filter]
      simp [or_assoc]
  · intro st
    have hne : ¬(("(no completions)\n" : String) = "") := by decide
    simp [emitCompletionList, emitConsoleText, splitTextToSegments, hne]
  · rfl

theorem c7_completions_witness :
    ∃ out, collectConsoleCompletions deps0 scopeFood scopeFood ("food.") = .ok out
      ∧ out.Sorted (fun a b => strLe a b = true) ∧ out.Nodup
      ∧ (∀ s, s ∈ out ↔ s ∈ deps0.dirF (.vint 1) ∧
          (if String.mk [] ≠ "" then pyStartsWith s (String.mk []) = true
           else pyStartsWith s ("__") = false)) :=
  (c7_completions deps0 scopeFood scopeFood ("food.")).1
    ("food").toList [] (.vint 1) (by decide) (by decide) rfl

end Panopti
